import Mathlib

/-!
Shallow embedding of `src/configloader.py` (class `INIConfigLoader`).

The program resolves layered INI configuration: for a logical name `N`
it locates a custom resource `N<config_ext>` and a default resource
`N<default_ext><config_ext>` under a base directory, parses them lazily
with a per-path cache, and answers single-value lookups (`get_value`)
and whole-section dumps (`get_section_values`) by overlaying the custom
resource on the default one.

Modelling choices:
* A parsed INI resource is an association list of sections, each an
  association list of key/value pairs (`configparser` rejects duplicate
  sections and keys, so real parsed data has unique keys; wellformedness
  appears as an explicit hypothesis where a proof needs it).
* The filesystem is a function `String → Option IniData`: `fs p = some d`
  means a file exists at path `p` and parses to `d` (`os.path.isfile`
  tests `(fs p).isSome`; `configparser.read` on the path yields `d`).
* Python truthiness on lookup results (`if not value`) is the `truthy`
  predicate: `None` and the empty string are falsy.
* The single Python exception class `ConfigError` raises three distinct
  message forms; they are modelled as an inductive error taxonomy.
* The mutable parser cache `self.__parsers` is modelled twice: pure
  operations parse directly, and `_st` variants thread the cache state
  explicitly; a refinement theorem connects the two.
-/

/-- One section of a parsed INI file: key/value pairs. -/
abbrev IniSection := List (String × String)

/-- A parsed INI file: named sections. -/
abbrev IniData := List (String × IniSection)

/-- First-match association-list lookup (dict access on parsed data). -/
def lookupKV {α : Type} : List (String × α) → String → Option α
  | [], _ => none
  | p :: rest, k => if p.1 = k then some p.2 else lookupKV rest k

/-- Python `os.path.sep` on the deployment platform. -/
def osSep : Char := '/'

/-- Path separator as a one-character string. -/
def osSepStr : String := "/"

/-- State of an `INIConfigLoader` instance after `__init__` succeeded:
the construction arguments plus the backing filesystem. -/
structure INIConfigLoader where
  configs_path : String
  config_ext : String
  default_ext : String
  fs : String → Option IniData

/-- Failure modes of `INIConfigLoader.__init__`: `configs_path[-1]` on an
empty string raises `IndexError` before the assert; otherwise the assert
`configs_path[-1] != os.path.sep` may fail. -/
inductive InitError where
  | indexError
  | assertionError
deriving Repr, DecidableEq

/-- Embedding of `INIConfigLoader.__init__`: evaluates `configs_path[-1]`
(IndexError on the empty string), then asserts it differs from
`os.path.sep`; on success the instance holds the arguments unchanged.
The defaults in the source are `config_ext='.ini'`, `default_ext='.default'`. -/
def initLoader (configs_path config_ext default_ext : String)
    (fs : String → Option IniData) : Except InitError INIConfigLoader :=
  match configs_path.data.getLast? with
  | none => .error .indexError
  | some c =>
    if c = osSep then .error .assertionError
    else .ok ⟨configs_path, config_ext, default_ext, fs⟩

/-- The error taxonomy carried by the three `raise ConfigError(...)` sites:
default file not found, key not found, section not found. -/
inductive ConfigError where
  | missingDefaultConfig (name : String)
  | missingKey (name sect key : String)
  | missingSection (name sect : String)
deriving Repr, DecidableEq

/-- Python truthiness of an optional lookup result: `None` and the empty
string are falsy, any other string is truthy. -/
def truthy : Option String → Bool
  | none => false
  | some s => s != ""

/-- Result of `configparser.ConfigParser().read(path)`: the parsed data
when the file exists (a missing file leaves the parser empty). -/
def parseFile (L : INIConfigLoader) (config_path : String) : IniData :=
  (L.fs config_path).getD []

/-- Embedding of `_find_ini_custom`: builds
`configs_path + os.path.sep + name + config_ext` and returns the path
iff a file exists there. -/
def find_ini_custom (L : INIConfigLoader) (config_file_name : String) :
    Option String :=
  let file_name_base := L.configs_path ++ osSepStr ++ config_file_name
  let custom_path := file_name_base ++ L.config_ext
  if (L.fs custom_path).isSome then some custom_path else none

/-- Embedding of `_find_ini_default`: builds
`configs_path + os.path.sep + name + default_ext + config_ext` and
returns the path iff a file exists there. -/
def find_ini_default (L : INIConfigLoader) (config_file_name : String) :
    Option String :=
  let file_name_base := L.configs_path ++ osSepStr ++ config_file_name
  let default_path := file_name_base ++ L.default_ext ++ L.config_ext
  if (L.fs default_path).isSome then some default_path else none

/-- Embedding of `_find_ini_value` (cache elided): `parser.get(section,key)`
returning `None` when the section or the key is absent (the caught
`NoSectionError` / `NoOptionError`). -/
def find_ini_value (L : INIConfigLoader) (config_path sect key : String) :
    Option String :=
  match lookupKV (parseFile L config_path) sect with
  | some kvs => lookupKV kvs key
  | none => none

/-- Embedding of `_get_ini_section` (cache elided): the section's pairs
when `parser.has_section(section)`, an empty dict otherwise. -/
def get_ini_section (L : INIConfigLoader) (config_path sect : String) :
    IniSection :=
  match lookupKV (parseFile L config_path) sect with
  | some kvs => kvs
  | none => []

/-- `d[k] = v` on a dict represented as an association list: replace the
value at an existing key, else append the new pair (insertion order). -/
def dictInsert (d : IniSection) (k v : String) : IniSection :=
  if d.any (fun p => p.1 = k) then
    d.map (fun p => if p.1 = k then (k, v) else p)
  else d ++ [(k, v)]

/-- Python `dict.update`: insert every pair of `items` into `d` in order. -/
def dictUpdate (d : IniSection) (items : IniSection) : IniSection :=
  items.foldl (fun acc p => dictInsert acc p.1 p.2) d

/-- Embedding of `get_value` (cache elided): custom lookup first; a falsy
custom result falls through to default when default exists; a falsy final
value raises (missing default if no default file, else missing key). -/
def get_value (L : INIConfigLoader) (config_file_name sect key : String) :
    Except ConfigError String :=
  let default_conf := find_ini_default L config_file_name
  let custom_conf := find_ini_custom L config_file_name
  let value : Option String :=
    match custom_conf, default_conf with
    | some cp, some dp =>
      let v := find_ini_value L cp sect key
      if truthy v then v else find_ini_value L dp sect key
    | some cp, none => find_ini_value L cp sect key
    | none, some dp => find_ini_value L dp sect key
    | none, none => none
  if truthy value then .ok (value.getD "")
  else if default_conf.isNone then
    .error (.missingDefaultConfig config_file_name)
  else .error (.missingKey config_file_name sect key)

/-- Embedding of `get_section_values` (cache elided): start from an empty
dict, `update` with the default resource's section, then with the custom
resource's section; an empty result raises (missing default if no default
file, else missing section). -/
def get_section_values (L : INIConfigLoader) (config_file_name sect : String) :
    Except ConfigError IniSection :=
  let default_conf := find_ini_default L config_file_name
  let custom_conf := find_ini_custom L config_file_name
  let result0 : IniSection := []
  let result1 : IniSection :=
    match default_conf with
    | some dp => dictUpdate result0 (get_ini_section L dp sect)
    | none => result0
  let result : IniSection :=
    match custom_conf with
    | some cp => dictUpdate result1 (get_ini_section L cp sect)
    | none => result1
  if result.isEmpty then
    if default_conf.isNone then
      .error (.missingDefaultConfig config_file_name)
    else .error (.missingSection config_file_name sect)
  else .ok result

/-- Value of the last pair with the given key, the value a Python dict
built from the list would hold. -/
def lastLookup : IniSection → String → Option String
  | [], _ => none
  | p :: rest, k =>
    match lastLookup rest k with
    | some v => some v
    | none => if p.1 = k then some p.2 else none

lemma lookupKV_map_replace {k v : String} :
    ∀ d : IniSection, d.any (fun p => p.1 = k) = true →
      lookupKV (d.map (fun p => if p.1 = k then (k, v) else p)) k = some v := by
  intro d hd
  induction d with
  | nil => simp at hd
  | cons p rest ih =>
    by_cases hp : p.1 = k
    · simp [lookupKV, hp]
    · simp only [List.any_cons, decide_eq_true_eq, hp, false_or,
        Bool.false_or] at hd
      simp [lookupKV, hp, ih hd]

lemma lookupKV_append_single {k v : String} :
    ∀ d : IniSection, d.any (fun p => p.1 = k) = false →
      lookupKV (d ++ [(k, v)]) k = some v := by
  intro d hd
  induction d with
  | nil => simp [lookupKV]
  | cons p rest ih =>
    simp only [List.any_cons, Bool.or_eq_false_iff, decide_eq_false_iff_not]
      at hd
    simp [lookupKV, hd.1, ih hd.2]

lemma lookupKV_dictInsert_self (d : IniSection) (k v : String) :
    lookupKV (dictInsert d k v) k = some v := by
  unfold dictInsert
  by_cases h : d.any (fun p => p.1 = k) = true
  · simp only [h, if_true]
    exact lookupKV_map_replace d h
  · rw [Bool.not_eq_true] at h
    simp only [h, Bool.false_eq_true, if_false]
    exact lookupKV_append_single d h

lemma lookupKV_map_replace_ne (k v k' : String) (h : k' ≠ k) :
    ∀ d : IniSection,
      lookupKV (d.map (fun p => if p.1 = k then (k, v) else p)) k' =
        lookupKV d k' := by
  intro d
  induction d with
  | nil => simp [lookupKV]
  | cons p rest ih =>
    by_cases hpk : p.1 = k
    · have h1 : ¬(k = k') := fun hh => h hh.symm
      have h2 : ¬(p.1 = k') := fun hh => h1 (hpk ▸ hh)
      simp [lookupKV, hpk, h1, h2, ih]
    · by_cases hp : p.1 = k'
      · simp [lookupKV, hpk, hp, h]
      · simp [lookupKV, hpk, hp, ih]

lemma lookupKV_append_single_ne (k v k' : String) (h : k' ≠ k) :
    ∀ d : IniSection, lookupKV (d ++ [(k, v)]) k' = lookupKV d k' := by
  intro d
  induction d with
  | nil => simp [lookupKV, h.symm]
  | cons p rest ih =>
    by_cases hp : p.1 = k'
    · simp [lookupKV, hp]
    · simp [lookupKV, hp, ih]

lemma lookupKV_dictInsert_ne (d : IniSection) (k v k' : String)
    (h : k' ≠ k) : lookupKV (dictInsert d k v) k' = lookupKV d k' := by
  unfold dictInsert
  by_cases ha : d.any (fun p => p.1 = k) = true
  · simp only [ha, if_true]
    exact lookupKV_map_replace_ne k v k' h d
  · rw [Bool.not_eq_true] at ha
    simp only [ha, Bool.false_eq_true, if_false]
    exact lookupKV_append_single_ne k v k' h d

lemma lookupKV_dictUpdate (items : IniSection) :
    ∀ (d : IniSection) (k : String),
      lookupKV (dictUpdate d items) k =
        match lastLookup items k with
        | some v => some v
        | none => lookupKV d k := by
  induction items with
  | nil => intro d k; simp [dictUpdate, lastLookup]
  | cons p rest ih =>
    intro d k
    have hstep : dictUpdate d (p :: rest) =
        dictUpdate (dictInsert d p.1 p.2) rest := rfl
    rw [hstep, ih]
    cases hrest : lastLookup rest k with
    | some v => simp [lastLookup, hrest]
    | none =>
      by_cases hp : p.1 = k
      · subst hp
        simp [lastLookup, hrest, lookupKV_dictInsert_self]
      · simp [lastLookup, hrest, hp,
          lookupKV_dictInsert_ne d p.1 p.2 k (Ne.symm hp)]

lemma dictInsert_ne_nil (d : IniSection) (k v : String) :
    dictInsert d k v ≠ [] := by
  unfold dictInsert
  by_cases h : d.any (fun p => p.1 = k) = true
  · cases d with
    | nil => simp at h
    | cons p rest => simp [h]
  · rw [Bool.not_eq_true] at h
    simp [h]

lemma dictUpdate_eq_nil_iff (items : IniSection) :
    ∀ d : IniSection, dictUpdate d items = [] ↔ d = [] ∧ items = [] := by
  induction items with
  | nil => intro d; simp [dictUpdate]
  | cons p rest ih =>
    intro d
    have hstep : dictUpdate d (p :: rest) =
        dictUpdate (dictInsert d p.1 p.2) rest := rfl
    rw [hstep, ih]
    simp [dictInsert_ne_nil]

lemma dictUpdate_disjoint_append (items : IniSection) :
    ∀ d : IniSection,
      (∀ q ∈ d, q.1 ∉ items.map Prod.fst) →
      (items.map Prod.fst).Nodup →
      dictUpdate d items = d ++ items := by
  induction items with
  | nil => intro d _ _; simp [dictUpdate]
  | cons p rest ih =>
    intro d hdisj hnd
    have hstep : dictUpdate d (p :: rest) =
        dictUpdate (dictInsert d p.1 p.2) rest := rfl
    have hany : d.any (fun q => q.1 = p.1) = false := by
      rw [Bool.eq_false_iff]
      intro hcontra
      rw [List.any_eq_true] at hcontra
      obtain ⟨q, hq, hq1⟩ := hcontra
      rw [decide_eq_true_eq] at hq1
      exact hdisj q hq (by simp [hq1])
    have hins : dictInsert d p.1 p.2 = d ++ [p] := by
      unfold dictInsert
      simp [hany]
    simp only [List.map_cons, List.nodup_cons] at hnd
    have hdisj' : ∀ q ∈ d ++ [p], q.1 ∉ rest.map Prod.fst := by
      intro q hq
      rcases List.mem_append.mp hq with hqd | hqp
      · intro hmem
        exact hdisj q hqd (by simp [hmem])
      · rcases List.mem_singleton.mp hqp with rfl
        exact hnd.1
    rw [hstep, hins, ih (d ++ [p]) hdisj' hnd.2, List.append_assoc]
    rfl

lemma dictUpdate_nil_left (sec : IniSection)
    (hnd : (sec.map Prod.fst).Nodup) : dictUpdate [] sec = sec := by
  have := dictUpdate_disjoint_append sec [] (by simp) hnd
  simpa using this

/-- The parser cache `self.__parsers`: resolved path to parsed data. -/
abbrev ParserCache := List (String × IniData)

/-- Embedding of `_get_parser` with the cache explicit: return the cached
parser when present (any `ConfigParser` instance is truthy, so `if not
parser` only fires on a cache miss), else parse and cache. -/
def get_parser_st (L : INIConfigLoader) (parsers : ParserCache)
    (config_path : String) : IniData × ParserCache :=
  match lookupKV parsers config_path with
  | some parser => (parser, parsers)
  | none =>
    let parser := parseFile L config_path
    (parser, (config_path, parser) :: parsers)

/-- Stateful embedding of `_find_ini_value`, threading the parser cache. -/
def find_ini_value_st (L : INIConfigLoader) (parsers : ParserCache)
    (config_path sect key : String) : Option String × ParserCache :=
  let pr := get_parser_st L parsers config_path
  (match lookupKV pr.1 sect with
   | some kvs => lookupKV kvs key
   | none => none, pr.2)

/-- Stateful embedding of `_get_ini_section`, threading the parser cache. -/
def get_ini_section_st (L : INIConfigLoader) (parsers : ParserCache)
    (config_path sect : String) : IniSection × ParserCache :=
  let pr := get_parser_st L parsers config_path
  (match lookupKV pr.1 sect with
   | some kvs => kvs
   | none => [], pr.2)

/-- Stateful embedding of `get_value`, threading the parser cache. -/
def get_value_st (L : INIConfigLoader) (parsers : ParserCache)
    (config_file_name sect key : String) :
    Except ConfigError String × ParserCache :=
  let default_conf := find_ini_default L config_file_name
  let custom_conf := find_ini_custom L config_file_name
  let vp : Option String × ParserCache :=
    match custom_conf, default_conf with
    | some cp, some dp =>
      let r1 := find_ini_value_st L parsers cp sect key
      if truthy r1.1 then r1 else find_ini_value_st L r1.2 dp sect key
    | some cp, none => find_ini_value_st L parsers cp sect key
    | none, some dp => find_ini_value_st L parsers dp sect key
    | none, none => (none, parsers)
  (if truthy vp.1 then .ok (vp.1.getD "")
   else if default_conf.isNone then
     .error (.missingDefaultConfig config_file_name)
   else .error (.missingKey config_file_name sect key), vp.2)

/-- Stateful embedding of `get_section_values`, threading the parser cache. -/
def get_section_values_st (L : INIConfigLoader) (parsers : ParserCache)
    (config_file_name sect : String) :
    Except ConfigError IniSection × ParserCache :=
  let default_conf := find_ini_default L config_file_name
  let custom_conf := find_ini_custom L config_file_name
  let rp1 : IniSection × ParserCache :=
    match default_conf with
    | some dp =>
      let t := get_ini_section_st L parsers dp sect
      (dictUpdate [] t.1, t.2)
    | none => ([], parsers)
  let rp : IniSection × ParserCache :=
    match custom_conf with
    | some cp =>
      let t := get_ini_section_st L rp1.2 cp sect
      (dictUpdate rp1.1 t.1, t.2)
    | none => rp1
  (if rp.1.isEmpty then
     if default_conf.isNone then
       .error (.missingDefaultConfig config_file_name)
     else .error (.missingSection config_file_name sect)
   else .ok rp.1, rp.2)

/-- A cache is coherent when every cached parser is exactly what parsing
its path yields; this is the invariant the mutable cache maintains while
the backing resources are unchanged. -/
def Coherent (L : INIConfigLoader) (parsers : ParserCache) : Prop :=
  ∀ p d, lookupKV parsers p = some d → d = parseFile L p

lemma coherent_nil (L : INIConfigLoader) : Coherent L [] := by
  intro p d h
  simp [lookupKV] at h

lemma get_parser_spec (L : INIConfigLoader) (parsers : ParserCache)
    (config_path : String) (h : Coherent L parsers) :
    (get_parser_st L parsers config_path).1 = parseFile L config_path ∧
      Coherent L (get_parser_st L parsers config_path).2 := by
  unfold get_parser_st
  cases hl : lookupKV parsers config_path with
  | some parser =>
    exact ⟨h _ _ hl, h⟩
  | none =>
    refine ⟨rfl, ?_⟩
    intro p d hp
    simp only [lookupKV] at hp
    split at hp
    · rename_i heq
      subst heq
      exact (Option.some.inj hp).symm
    · exact h _ _ hp

lemma find_ini_value_st_spec (L : INIConfigLoader) (parsers : ParserCache)
    (config_path sect key : String) (h : Coherent L parsers) :
    (find_ini_value_st L parsers config_path sect key).1 =
        find_ini_value L config_path sect key ∧
      Coherent L (find_ini_value_st L parsers config_path sect key).2 := by
  obtain ⟨h1, h2⟩ := get_parser_spec L parsers config_path h
  exact ⟨by simp [find_ini_value_st, find_ini_value, h1], h2⟩

lemma get_ini_section_st_spec (L : INIConfigLoader) (parsers : ParserCache)
    (config_path sect : String) (h : Coherent L parsers) :
    (get_ini_section_st L parsers config_path sect).1 =
        get_ini_section L config_path sect ∧
      Coherent L (get_ini_section_st L parsers config_path sect).2 := by
  obtain ⟨h1, h2⟩ := get_parser_spec L parsers config_path h
  exact ⟨by simp [get_ini_section_st, get_ini_section, h1], h2⟩

lemma get_value_st_spec (L : INIConfigLoader) (parsers : ParserCache)
    (config_file_name sect key : String) (h : Coherent L parsers) :
    (get_value_st L parsers config_file_name sect key).1 =
        get_value L config_file_name sect key ∧
      Coherent L (get_value_st L parsers config_file_name sect key).2 := by
  cases hc : find_ini_custom L config_file_name with
  | some cp =>
    cases hd : find_ini_default L config_file_name with
    | some dp =>
      obtain ⟨e1, c1⟩ := find_ini_value_st_spec L parsers cp sect key h
      cases ht : truthy (find_ini_value L cp sect key) with
      | true =>
        constructor
        · simp [get_value_st, get_value, hc, hd, e1, ht]
        · have : (get_value_st L parsers config_file_name sect key).2 =
              (find_ini_value_st L parsers cp sect key).2 := by
            simp [get_value_st, hc, hd, e1, ht]
          rw [this]
          exact c1
      | false =>
        obtain ⟨e2, c2⟩ :=
          find_ini_value_st_spec L
            (find_ini_value_st L parsers cp sect key).2 dp sect key c1
        constructor
        · simp [get_value_st, get_value, hc, hd, e1, ht, e2]
        · have : (get_value_st L parsers config_file_name sect key).2 =
              (find_ini_value_st L
                (find_ini_value_st L parsers cp sect key).2 dp sect key).2 := by
            simp [get_value_st, hc, hd, e1, ht]
          rw [this]
          exact c2
    | none =>
      obtain ⟨e1, c1⟩ := find_ini_value_st_spec L parsers cp sect key h
      constructor
      · simp [get_value_st, get_value, hc, hd, e1]
      · have : (get_value_st L parsers config_file_name sect key).2 =
            (find_ini_value_st L parsers cp sect key).2 := by
          simp [get_value_st, hc, hd]
        rw [this]
        exact c1
  | none =>
    cases hd : find_ini_default L config_file_name with
    | some dp =>
      obtain ⟨e1, c1⟩ := find_ini_value_st_spec L parsers dp sect key h
      constructor
      · simp [get_value_st, get_value, hc, hd, e1]
      · have : (get_value_st L parsers config_file_name sect key).2 =
            (find_ini_value_st L parsers dp sect key).2 := by
          simp [get_value_st, hc, hd]
        rw [this]
        exact c1
    | none =>
      constructor
      · simp [get_value_st, get_value, hc, hd]
      · have : (get_value_st L parsers config_file_name sect key).2 = parsers := by
          simp [get_value_st, hc, hd]
        rw [this]
        exact h

lemma get_section_values_st_spec (L : INIConfigLoader) (parsers : ParserCache)
    (config_file_name sect : String) (h : Coherent L parsers) :
    (get_section_values_st L parsers config_file_name sect).1 =
        get_section_values L config_file_name sect ∧
      Coherent L (get_section_values_st L parsers config_file_name sect).2 := by
  cases hc : find_ini_custom L config_file_name with
  | some cp =>
    cases hd : find_ini_default L config_file_name with
    | some dp =>
      obtain ⟨e1, c1⟩ := get_ini_section_st_spec L parsers dp sect h
      obtain ⟨e2, c2⟩ :=
        get_ini_section_st_spec L
          (get_ini_section_st L parsers dp sect).2 cp sect c1
      constructor
      · simp [get_section_values_st, get_section_values, hc, hd, e1, e2]
      · have : (get_section_values_st L parsers config_file_name sect).2 =
            (get_ini_section_st L
              (get_ini_section_st L parsers dp sect).2 cp sect).2 := by
          simp [get_section_values_st, hc, hd]
        rw [this]
        exact c2
    | none =>
      obtain ⟨e1, c1⟩ := get_ini_section_st_spec L parsers cp sect h
      constructor
      · simp [get_section_values_st, get_section_values, hc, hd, e1]
      · have : (get_section_values_st L parsers config_file_name sect).2 =
            (get_ini_section_st L parsers cp sect).2 := by
          simp [get_section_values_st, hc, hd]
        rw [this]
        exact c1
  | none =>
    cases hd : find_ini_default L config_file_name with
    | some dp =>
      obtain ⟨e1, c1⟩ := get_ini_section_st_spec L parsers dp sect h
      constructor
      · simp [get_section_values_st, get_section_values, hc, hd, e1]
      · have : (get_section_values_st L parsers config_file_name sect).2 =
            (get_ini_section_st L parsers dp sect).2 := by
          simp [get_section_values_st, hc, hd]
        rw [this]
        exact c1
    | none =>
      constructor
      · simp [get_section_values_st, get_section_values, hc, hd]
      · have : (get_section_values_st L parsers config_file_name sect).2 =
            parsers := by
          simp [get_section_values_st, hc, hd]
        rw [this]
        exact h


lemma truthy_getD_ne (v : Option String) (h : truthy v = true) :
    v.getD "" ≠ "" := by
  cases v with
  | none => simp [truthy] at h
  | some s =>
    simp only [truthy, bne_iff_ne, ne_eq] at h
    simpa using h

/-- C1: with both resources present, a custom value that is the empty
string is treated as absent and `get_value` falls through to the
default's non-empty value. -/
theorem C1_empty_custom_falls_through (L : INIConfigLoader)
    (name sect key cp dp dv : String)
    (hd : find_ini_default L name = some dp)
    (hc : find_ini_custom L name = some cp)
    (hcv : find_ini_value L cp sect key = some "")
    (hdv : find_ini_value L dp sect key = some dv)
    (hne : dv ≠ "") :
    get_value L name sect key = .ok dv := by
  simp [get_value, hd, hc, hcv, hdv, truthy, hne]

/-- Witness for C1: the spec's concrete scenario, where the custom file
overrides `port` with the empty string and the default holds `8080`. -/
theorem C1_empty_custom_falls_through_witness :
    get_value
      ⟨"cfg", ".ini", ".default", fun p =>
        if p = "cfg/app.default.ini" then
          some [("server", [("host", "localhost"), ("port", "8080")])]
        else if p = "cfg/app.ini" then
          some [("server", [("port", "")])]
        else none⟩
      "app" "server" "port" = .ok "8080" :=
  C1_empty_custom_falls_through _ "app" "server" "port"
    "cfg/app.ini" "cfg/app.default.ini" "8080" rfl rfl rfl rfl (by decide)

/-- C2: with both resources present, `get_section_values` overlays the
custom section unconditionally, so a custom empty-string value shadows a
non-empty default value in the returned mapping. -/
theorem C2_section_overlay_unconditional (L : INIConfigLoader)
    (name sect key cp dp dv : String)
    (hd : find_ini_default L name = some dp)
    (hc : find_ini_custom L name = some cp)
    (hcv : lastLookup (get_ini_section L cp sect) key = some "")
    (hdv : lookupKV (get_ini_section L dp sect) key = some dv)
    (hdne : dv ≠ "") :
    ∃ m, get_section_values L name sect = .ok m ∧
      lookupKV m key = some "" := by
  have hres : lookupKV
      (dictUpdate (dictUpdate [] (get_ini_section L dp sect))
        (get_ini_section L cp sect)) key = some "" := by
    rw [lookupKV_dictUpdate]
    simp [hcv]
  have hmne : dictUpdate (dictUpdate [] (get_ini_section L dp sect))
      (get_ini_section L cp sect) ≠ [] := by
    intro h0
    rw [h0] at hres
    simp [lookupKV] at hres
  refine ⟨_, ?_, hres⟩
  simp only [get_section_values, hc, hd]
  rw [if_neg]
  simp [hmne]

/-- Witness for C2: in the spec's concrete scenario the returned section
maps `port` to the empty string despite the non-empty default. -/
theorem C2_section_overlay_unconditional_witness :
    ∃ m, get_section_values
        ⟨"cfg", ".ini", ".default", fun p =>
          if p = "cfg/app.default.ini" then
            some [("server", [("host", "localhost"), ("port", "8080")])]
          else if p = "cfg/app.ini" then
            some [("server", [("port", "")])]
          else none⟩
        "app" "server" = .ok m ∧ lookupKV m "port" = some "" :=
  C2_section_overlay_unconditional _ "app" "server" "port"
    "cfg/app.ini" "cfg/app.default.ini" "8080" rfl rfl rfl rfl (by decide)

/-- C4: with both resources present and both holding a non-empty value
for the key, `get_value` returns the custom value; the default value is
not the result whenever it differs from the custom one. -/
theorem C4_custom_override_wins (L : INIConfigLoader)
    (name sect key cp dp cv dv : String)
    (hd : find_ini_default L name = some dp)
    (hc : find_ini_custom L name = some cp)
    (hcv : find_ini_value L cp sect key = some cv) (hcne : cv ≠ "")
    (hdv : find_ini_value L dp sect key = some dv) (hdne : dv ≠ "") :
    get_value L name sect key = .ok cv ∧
      (cv ≠ dv → get_value L name sect key ≠ .ok dv) := by
  have h1 : get_value L name sect key = .ok cv := by
    simp [get_value, hd, hc, hcv, truthy, hcne]
  exact ⟨h1, fun hne hcontra => hne (by rw [h1] at hcontra; injection hcontra)⟩

/-- Example instance for the C4 witness: both layers define `port`. -/
def loaderC4 : INIConfigLoader :=
  ⟨"cfg", ".ini", ".default", fun p =>
    if p = "cfg/app.default.ini" then
      some [("server", [("port", "8080")])]
    else if p = "cfg/app.ini" then
      some [("server", [("port", "9090")])]
    else none⟩

/-- Witness for C4: custom `port=9090` wins over default `port=8080`. -/
theorem C4_custom_override_wins_witness :
    get_value loaderC4 "app" "server" "port" = .ok "9090" :=
  (C4_custom_override_wins loaderC4 "app" "server" "port"
    "cfg/app.ini" "cfg/app.default.ini" "9090" "8080"
    rfl rfl rfl (by decide) rfl (by decide)).1

/-- C5: with only the default resource present, `get_value` returns the
default's stored (non-empty) value and `get_section_values` returns the
default's (non-empty, duplicate-free) section unchanged. -/
theorem C5_default_only_passthrough (L : INIConfigLoader)
    (name sect key dp : String)
    (hc : find_ini_custom L name = none)
    (hd : find_ini_default L name = some dp) :
    (∀ v, find_ini_value L dp sect key = some v → v ≠ "" →
        get_value L name sect key = .ok v) ∧
      ((get_ini_section L dp sect).isEmpty = false →
        ((get_ini_section L dp sect).map Prod.fst).Nodup →
        get_section_values L name sect = .ok (get_ini_section L dp sect)) := by
  constructor
  · intro v hv hne
    simp [get_value, hd, hc, hv, truthy, hne]
  · intro hne hnd
    simp [get_section_values, hc, hd, dictUpdate_nil_left _ hnd, hne]

/-- Example instance for the C5 witness: only the default file exists. -/
def loaderC5 : INIConfigLoader :=
  ⟨"cfg", ".ini", ".default", fun p =>
    if p = "cfg/app.default.ini" then
      some [("server", [("host", "localhost"), ("port", "8080")])]
    else none⟩

/-- Witness for C5: a default-only configuration returns its own value
and its own section. -/
theorem C5_default_only_passthrough_witness :
    get_value loaderC5 "app" "server" "host" = .ok "localhost" ∧
      get_section_values loaderC5 "app" "server" =
        .ok [("host", "localhost"), ("port", "8080")] :=
  ⟨(C5_default_only_passthrough loaderC5 "app" "server" "host"
      "cfg/app.default.ini" rfl rfl).1 "localhost" rfl (by decide),
   (C5_default_only_passthrough loaderC5 "app" "server" "host"
      "cfg/app.default.ini" rfl rfl).2 (by decide) (by decide)⟩

/-- C10: whenever `get_value` returns normally, the returned string is
non-empty: a falsy final value always raises instead of returning. -/
theorem C10_returned_value_nonempty (L : INIConfigLoader)
    (name sect key v : String)
    (h : get_value L name sect key = .ok v) : v ≠ "" := by
  simp only [get_value] at h
  split at h
  · rename_i ht
    injection h with h
    rw [← h]
    exact truthy_getD_ne _ ht
  · split at h <;> simp at h

/-- Witness for C10: a successful lookup yields a non-empty string. -/
theorem C10_returned_value_nonempty_witness :
    ("localhost" : String) ≠ "" :=
  C10_returned_value_nonempty
    ⟨"cfg", ".ini", ".default", fun p =>
      if p = "cfg/app.default.ini" then
        some [("server", [("host", "localhost")])]
      else none⟩
    "app" "server" "host" "localhost" rfl

/-- C6: when the default resource exists, `get_value` fails with the
missing-key error exactly when neither layer yields a truthy value,
`get_section_values` fails with the missing-section error exactly when
the section is empty or absent in both layers, and neither operation
ever reports a missing default configuration. -/
theorem C6_error_taxonomy_with_default (L : INIConfigLoader)
    (name sect key dp : String)
    (hd : find_ini_default L name = some dp) :
    (get_value L name sect key = .error (.missingKey name sect key) ↔
      ((∀ cp, find_ini_custom L name = some cp →
          truthy (find_ini_value L cp sect key) = false) ∧
        truthy (find_ini_value L dp sect key) = false)) ∧
    (get_section_values L name sect = .error (.missingSection name sect) ↔
      (get_ini_section L dp sect = [] ∧
        ∀ cp, find_ini_custom L name = some cp →
          get_ini_section L cp sect = [])) ∧
    (∀ m, get_value L name sect key ≠ .error (.missingDefaultConfig m)) ∧
    (∀ m, get_section_values L name sect ≠ .error (.missingDefaultConfig m)) := by
  have hA : get_value L name sect key = .error (.missingKey name sect key) ↔
      ((∀ cp, find_ini_custom L name = some cp →
          truthy (find_ini_value L cp sect key) = false) ∧
        truthy (find_ini_value L dp sect key) = false) := by
    cases hc : find_ini_custom L name with
    | some cp =>
      cases ht : truthy (find_ini_value L cp sect key) with
      | true =>
        cases htd : truthy (find_ini_value L dp sect key) with
        | true => simp [get_value, hd, hc, ht, htd]
        | false => simp [get_value, hd, hc, ht, htd]
      | false =>
        cases htd : truthy (find_ini_value L dp sect key) with
        | true => simp [get_value, hd, hc, ht, htd]
        | false => simp [get_value, hd, hc, ht, htd]
    | none =>
      cases htd : truthy (find_ini_value L dp sect key) with
      | true => simp [get_value, hd, hc, htd]
      | false => simp [get_value, hd, hc, htd]
  have hC : ∀ m, get_value L name sect key ≠
      .error (.missingDefaultConfig m) := by
    intro m
    cases hc : find_ini_custom L name with
    | some cp =>
      cases ht : truthy (find_ini_value L cp sect key) with
      | true => simp [get_value, hd, hc, ht]
      | false =>
        cases htd : truthy (find_ini_value L dp sect key) with
        | true => simp [get_value, hd, hc, ht, htd]
        | false => simp [get_value, hd, hc, ht, htd]
    | none =>
      cases htd : truthy (find_ini_value L dp sect key) with
      | true => simp [get_value, hd, hc, htd]
      | false => simp [get_value, hd, hc, htd]
  have hB : get_section_values L name sect =
      .error (.missingSection name sect) ↔
      (get_ini_section L dp sect = [] ∧
        ∀ cp, find_ini_custom L name = some cp →
          get_ini_section L cp sect = []) := by
    cases hc : find_ini_custom L name with
    | some cp =>
      have hnil : dictUpdate (dictUpdate [] (get_ini_section L dp sect))
          (get_ini_section L cp sect) = [] ↔
          (get_ini_section L dp sect = [] ∧
            get_ini_section L cp sect = []) := by
        rw [dictUpdate_eq_nil_iff, dictUpdate_eq_nil_iff]
        tauto
      by_cases hres : dictUpdate (dictUpdate [] (get_ini_section L dp sect))
          (get_ini_section L cp sect) = []
      · have hgs : get_section_values L name sect =
            .error (.missingSection name sect) := by
          simp [get_section_values, hd, hc, hres]
        rw [hgs]
        constructor
        · intro _
          refine ⟨(hnil.mp hres).1, fun cp' hcp' => ?_⟩
          rw [← Option.some.inj hcp']
          exact (hnil.mp hres).2
        · intro _
          rfl
      · have hgs : get_section_values L name sect =
            .ok (dictUpdate (dictUpdate [] (get_ini_section L dp sect))
              (get_ini_section L cp sect)) := by
          simp [get_section_values, hd, hc, List.isEmpty_iff, hres]
        rw [hgs]
        constructor
        · intro h
          exact absurd h (by simp)
        · rintro ⟨h1, h2⟩
          exact absurd (hnil.mpr ⟨h1, h2 cp rfl⟩) hres
    | none =>
      by_cases hres : dictUpdate [] (get_ini_section L dp sect) = []
      · have hgs : get_section_values L name sect =
            .error (.missingSection name sect) := by
          simp [get_section_values, hd, hc, hres]
        rw [hgs]
        constructor
        · intro _
          refine ⟨((dictUpdate_eq_nil_iff _ _).mp hres).2, fun cp' hcp' => ?_⟩
          exact Option.noConfusion hcp'
        · intro _
          rfl
      · have hgs : get_section_values L name sect =
            .ok (dictUpdate [] (get_ini_section L dp sect)) := by
          simp [get_section_values, hd, hc, List.isEmpty_iff, hres]
        rw [hgs]
        constructor
        · intro h
          exact absurd h (by simp)
        · rintro ⟨h1, _⟩
          exact absurd ((dictUpdate_eq_nil_iff _ _).mpr ⟨rfl, h1⟩) hres
  have hD : ∀ m, get_section_values L name sect ≠
      .error (.missingDefaultConfig m) := by
    intro m
    cases hc : find_ini_custom L name with
    | some cp =>
      by_cases hres : dictUpdate (dictUpdate [] (get_ini_section L dp sect))
          (get_ini_section L cp sect) = []
      · simp [get_section_values, hd, hc, hres]
      · simp [get_section_values, hd, hc, List.isEmpty_iff, hres]
    | none =>
      by_cases hres : dictUpdate [] (get_ini_section L dp sect) = []
      · simp [get_section_values, hd, hc, hres]
      · simp [get_section_values, hd, hc, List.isEmpty_iff, hres]
  exact ⟨hA, hB, hC, hD⟩

/-- Example instance for the C6 witness: a default file whose section
`server` holds only `host`; no custom file. -/
def loaderC6 : INIConfigLoader :=
  ⟨"cfg", ".ini", ".default", fun p =>
    if p = "cfg/app.default.ini" then
      some [("server", [("host", "localhost")])]
    else none⟩

/-- Witness for C6: a key absent from both layers produces the
missing-key error. -/
theorem C6_error_taxonomy_with_default_witness :
    get_value loaderC6 "app" "server" "nokey" =
      .error (.missingKey "app" "server" "nokey") :=
  (C6_error_taxonomy_with_default loaderC6 "app" "server" "nokey"
    "cfg/app.default.ini" rfl).1.mpr
    ⟨fun cp hcp => Option.noConfusion hcp, by decide⟩

/-- Example instance for C3: only a custom file exists, and it contains
a non-empty value for `port`. -/
def loaderC3 : INIConfigLoader :=
  ⟨"cfg", ".ini", ".default", fun p =>
    if p = "cfg/app.ini" then some [("server", [("port", "9090")])]
    else none⟩

/-- Counterexample to C3 as stated: with no default resource but a custom
resource holding a non-empty value, both operations succeed with the
custom data instead of failing with the missing-default error. -/
theorem C3_custom_only_counterexample :
    find_ini_default loaderC3 "app" = none ∧
      get_value loaderC3 "app" "server" "port" = .ok "9090" ∧
      get_section_values loaderC3 "app" "server" = .ok [("port", "9090")] :=
  ⟨rfl, rfl, rfl⟩

/-- C3 amended: when the default resource is absent, each operation fails
with the missing-default error exactly when the custom layer yields
nothing (no custom file, a falsy custom value, an empty custom section);
a truthy custom value or a non-empty custom section is returned instead. -/
theorem C3_missing_default_amended (L : INIConfigLoader)
    (name sect key : String)
    (hd : find_ini_default L name = none) :
    ((∀ cp, find_ini_custom L name = some cp →
        truthy (find_ini_value L cp sect key) = false) →
      get_value L name sect key = .error (.missingDefaultConfig name)) ∧
    (∀ cp cv, find_ini_custom L name = some cp →
      find_ini_value L cp sect key = some cv → cv ≠ "" →
      get_value L name sect key = .ok cv) ∧
    ((∀ cp, find_ini_custom L name = some cp →
        get_ini_section L cp sect = []) →
      get_section_values L name sect = .error (.missingDefaultConfig name)) ∧
    (∀ cp, find_ini_custom L name = some cp →
      get_ini_section L cp sect ≠ [] →
      get_section_values L name sect =
        .ok (dictUpdate [] (get_ini_section L cp sect))) := by
  refine ⟨?_, ?_, ?_, ?_⟩
  · intro hall
    cases hc : find_ini_custom L name with
    | some cp =>
      have ht := hall cp hc
      simp [get_value, hd, hc, ht]
    | none =>
      simp [get_value, hd, hc, truthy]
  · intro cp cv hc hcv hne
    simp [get_value, hd, hc, hcv, truthy, hne]
  · intro hall
    cases hc : find_ini_custom L name with
    | some cp =>
      have hsec := hall cp hc
      simp [get_section_values, hd, hc, hsec, dictUpdate]
    | none =>
      simp [get_section_values, hd, hc, dictUpdate]
  · intro cp hc hne
    have hres : dictUpdate [] (get_ini_section L cp sect) ≠ [] :=
      fun h0 => hne ((dictUpdate_eq_nil_iff _ _).mp h0).2
    simp [get_section_values, hd, hc, List.isEmpty_iff, hres]

/-- Witness for the amended C3: with a custom file lacking the requested
key and no default file, `get_value` reports the missing default. -/
theorem C3_missing_default_amended_witness :
    get_value loaderC3 "app" "server" "nokey" =
      .error (.missingDefaultConfig "app") :=
  (C3_missing_default_amended loaderC3 "app" "server" "nokey" rfl).1
    (fun cp hcp => by
      have h2 : (some "cfg/app.ini" : Option String) = some cp := hcp
      rw [← Option.some.inj h2]
      rfl)

/-- C8: the locator builds the custom path
`configs_path + sep + name + config_ext` and the default path
`configs_path + sep + name + default_ext + config_ext`, returns the path
when a file exists there and `None` (not an error) otherwise. -/
theorem C8_locator_paths (L : INIConfigLoader) (name : String) :
    ((L.fs (L.configs_path ++ osSepStr ++ name ++ L.config_ext)).isSome =
        true →
      find_ini_custom L name =
        some (L.configs_path ++ osSepStr ++ name ++ L.config_ext)) ∧
    (L.fs (L.configs_path ++ osSepStr ++ name ++ L.config_ext) = none →
      find_ini_custom L name = none) ∧
    ((L.fs (L.configs_path ++ osSepStr ++ name ++ L.default_ext ++
          L.config_ext)).isSome = true →
      find_ini_default L name =
        some (L.configs_path ++ osSepStr ++ name ++ L.default_ext ++
          L.config_ext)) ∧
    (L.fs (L.configs_path ++ osSepStr ++ name ++ L.default_ext ++
        L.config_ext) = none →
      find_ini_default L name = none) := by
  refine ⟨?_, ?_, ?_, ?_⟩
  · intro h
    simp [find_ini_custom, h]
  · intro h
    simp [find_ini_custom, h]
  · intro h
    simp [find_ini_default, h]
  · intro h
    simp [find_ini_default, h]

/-- Example instance for the C8 witness: with the default arguments
`.ini` and `.default`, name `app` resolves to `cfg/app.ini` (present)
and `cfg/app.default.ini` (absent). -/
def loaderC8 : INIConfigLoader :=
  ⟨"cfg", ".ini", ".default", fun p =>
    if p = "cfg/app.ini" then some [("server", [("port", "9090")])]
    else none⟩

/-- Witness for C8: the custom path is found, the default path is
reported absent without an error. -/
theorem C8_locator_paths_witness :
    find_ini_custom loaderC8 "app" = some "cfg/app.ini" ∧
      find_ini_default loaderC8 "app" = none :=
  ⟨(C8_locator_paths loaderC8 "app").1 rfl,
   (C8_locator_paths loaderC8 "app").2.2.2 rfl⟩

/-- Counterexample to C9 as stated: the empty base directory does not end
with the path separator (it has no last character), yet construction does
not succeed: `configs_path[-1]` raises `IndexError`. -/
theorem C9_empty_path_counterexample :
    "".data.getLast? = none ∧
      initLoader "" ".ini" ".default" (fun _ => none) =
        .error .indexError :=
  ⟨rfl, rfl⟩

/-- C9 amended: for every non-empty base directory, construction fails
the assertion exactly when the last character is the path separator and
succeeds otherwise; the empty base directory fails with an index error
before the assertion. -/
theorem C9_init_guard_amended (cp ce de : String)
    (fs : String → Option IniData) (hne : cp ≠ "") :
    (cp.data.getLast? = some osSep →
      initLoader cp ce de fs = .error .assertionError) ∧
    (cp.data.getLast? ≠ some osSep →
      initLoader cp ce de fs = .ok ⟨cp, ce, de, fs⟩) := by
  constructor
  · intro h
    simp [initLoader, h]
  · intro h
    cases hlast : cp.data.getLast? with
    | none =>
      exfalso
      apply hne
      have h0 : cp.data = [] := List.getLast?_eq_none_iff.mp hlast
      cases cp with
      | mk l =>
        simp only at h0
        subst h0
        rfl
    | some c =>
      have hcne : ¬(c = osSep) := fun hh => h (hlast.trans (by rw [hh]))
      simp [initLoader, hlast, hcne]

/-- Witness for the amended C9: `cfg/` is rejected by the assertion,
`cfg` constructs successfully. -/
theorem C9_init_guard_amended_witness :
    initLoader "cfg/" ".ini" ".default" (fun _ => none) =
        .error .assertionError ∧
      initLoader "cfg" ".ini" ".default" (fun _ => none) =
        .ok ⟨"cfg", ".ini", ".default", fun _ => none⟩ :=
  ⟨(C9_init_guard_amended "cfg/" ".ini" ".default" (fun _ => none)
      (by decide)).1 (by decide),
   (C9_init_guard_amended "cfg" ".ini" ".default" (fun _ => none)
      (by decide)).2 (by decide)⟩

/-- C7: with a coherent parser cache (in particular the empty one a fresh
instance starts with), repeating a call with identical arguments over the
cache the first call produced returns the identical result: the lazy
parse-once cache does not alter observable behavior. -/
theorem C7_cache_idempotent (L : INIConfigLoader) (parsers : ParserCache)
    (name sect key : String) (h : Coherent L parsers) :
    (get_value_st L ((get_value_st L parsers name sect key).2)
        name sect key).1 =
      (get_value_st L parsers name sect key).1 ∧
    (get_section_values_st L
        ((get_section_values_st L parsers name sect).2) name sect).1 =
      (get_section_values_st L parsers name sect).1 := by
  obtain ⟨e1, c1⟩ := get_value_st_spec L parsers name sect key h
  obtain ⟨e2, _⟩ :=
    get_value_st_spec L (get_value_st L parsers name sect key).2
      name sect key c1
  obtain ⟨f1, d1⟩ := get_section_values_st_spec L parsers name sect h
  obtain ⟨f2, _⟩ :=
    get_section_values_st_spec L
      (get_section_values_st L parsers name sect).2 name sect d1
  exact ⟨e2.trans e1.symm, f2.trans f1.symm⟩

/-- Example instance for the C7 witness: both resources exist. -/
def loaderC7 : INIConfigLoader :=
  ⟨"cfg", ".ini", ".default", fun p =>
    if p = "cfg/app.default.ini" then
      some [("server", [("host", "localhost"), ("port", "8080")])]
    else if p = "cfg/app.ini" then
      some [("server", [("port", "")])]
    else none⟩

/-- Witness for C7: starting from the empty cache of a fresh instance,
the second identical call returns the first call's result. -/
theorem C7_cache_idempotent_witness :
    (get_value_st loaderC7
        ((get_value_st loaderC7 [] "app" "server" "port").2)
        "app" "server" "port").1 =
      (get_value_st loaderC7 [] "app" "server" "port").1 ∧
    (get_section_values_st loaderC7
        ((get_section_values_st loaderC7 [] "app" "server").2)
        "app" "server").1 =
      (get_section_values_st loaderC7 [] "app" "server").1 :=
  C7_cache_idempotent loaderC7 [] "app" "server" "port"
    (coherent_nil loaderC7)
